import Mathlib

/-!
Shallow Lean embedding of the domain-check repository's resolution core:
the WHOIS response classifier, the lookup error handling, the cache store,
the serial rate limiter, the batch checker, the GoDaddy structured-API
service, and the domain-list parser.

Modelling conventions:
* JS strings are Lean `String`s; `toLowerCase()` is `strToLower`
  (ASCII case folding; every vocabulary pattern in the source is ASCII
  lowercase, so matching agrees on the inputs the code compares).
* The raw `whois-json` response object is represented by its JSON
  serialization: `Option String`, `none` standing for a falsy (absent)
  payload, `some s` for a truthy object whose `JSON.stringify` is `s`.
* `Date.now()` readings and elapsed times are explicit `Nat` parameters;
  ISO timestamps are opaque `String` parameters.
* Promise rejection / thrown exceptions are `Except String`.
* Console logging in the source has no effect on any returned value and is
  omitted.
-/

/-- JavaScript `toLowerCase()`, char by char (ASCII case folding; the
source only ever matches ASCII lowercase vocabulary against the result). -/
def strToLower (s : String) : String :=
  String.mk (s.data.map Char.toLower)

/-- JavaScript `trim()`: strip leading and trailing whitespace. -/
def strTrim (s : String) : String :=
  String.mk (((s.data.dropWhile Char.isWhitespace).reverse.dropWhile
    Char.isWhitespace).reverse)

/-- `listPrefixCheck needle hay`: `needle` is a prefix of `hay`. -/
def listPrefixCheck : List Char → List Char → Bool
  | [], _ => true
  | _ :: _, [] => false
  | a :: as, b :: bs => a == b && listPrefixCheck as bs

/-- JavaScript `startsWith`. -/
def strStartsWith (s pre : String) : Bool :=
  listPrefixCheck pre.data s.data

/-- JavaScript `endsWith`. -/
def strEndsWith (s suf : String) : Bool :=
  listPrefixCheck suf.data.reverse s.data.reverse

/-- `listContainsSub needle hay`: `needle` occurs contiguously in `hay`. -/
def listContainsSub (needle : List Char) : List Char → Bool
  | [] => needle.isEmpty
  | c :: cs => listPrefixCheck needle (c :: cs) || listContainsSub needle cs

/-- JavaScript `hay.includes(sub)`: substring containment. -/
def strIncludes (hay sub : String) : Bool :=
  listContainsSub sub.data hay.data

/-! ## Response classifier (src/backend/src/services/whois.service.js) -/

/-- The `strongRegisteredPatterns` list of `isDomainAvailable`, verbatim. -/
def strongRegisteredPatterns : List String :=
  ["registrar:", "registrar url:", "registrar iana id:", "creation date:",
   "created on:", "created:", "registered on:", "registered:",
   "registration date:", "domain status: clienttransferprohibited",
   "domain status: active", "status: active", "status: registered",
   "nameserver:", "name server:", "nserver:", "dns:",
   "registrant organization:", "registrant name:", "registrant:",
   "admin contact:", "admin email:", "technical contact:", "tech email:",
   "expiration date:", "expiry date:", "expires on:", "expires:",
   "updated date:", "last updated:", "registry expiry date:", "dnssec:",
   "whois server:"]

/-- The `availablePatterns` list of `isDomainAvailable`, verbatim. -/
def availablePatterns : List String :=
  ["no match for", "no match", "not found", "no entries found",
   "no data found", "status: available", "status: free",
   "available for registration", "is available", "no se encontró",
   "not registered", "no existe", "disponible para", "domain not found",
   "no object found", "no matching record", "no information available",
   "domain name not known"]

/-- How many distinct strong registration patterns occur in `dataStr`
(the loop counter `registeredPatternCount` of `isDomainAvailable`). -/
def registeredPatternCount (dataStr : String) : Nat :=
  (strongRegisteredPatterns.filter (fun p => strIncludes dataStr p)).length

/-- Some availability pattern occurs in `dataStr` (the second scan loop of
`isDomainAvailable`). -/
def hasAvailablePattern (dataStr : String) : Bool :=
  availablePatterns.any (fun p => strIncludes dataStr p)

/-- `WhoisService.isDomainAvailable(data, domain)`.  `data` is the raw
response as an `Option`al JSON serialization.  The source's early `return
false` as soon as the running pattern counter reaches 2 and its `>= 1`
check after the loop are rendered by the two counter tests, which return
the same value; the `domain` argument only feeds console logs. -/
def isDomainAvailable (data : Option String) : Bool :=
  match data with
  | none => true
  | some s =>
    let dataStr := strToLower s
    if dataStr.length < 50 then true
    else if 2 ≤ registeredPatternCount dataStr then false
    else if 1 ≤ registeredPatternCount dataStr then false
    else if hasAvailablePattern dataStr then true
    else if dataStr.length < 200 then true
    else false

/-- The `notFoundPatterns` list of `isNotFoundError`, verbatim. -/
def notFoundPatterns : List String :=
  ["no match", "not found", "no entries found", "no data found",
   "no se encontró", "domain not found"]

/-- `WhoisService.isNotFoundError(errorMessage)`. -/
def isNotFoundError (errorMessage : String) : Bool :=
  notFoundPatterns.any (fun p => strIncludes (strToLower errorMessage) p)

/-- The `timeoutPatterns` list of `isTimeoutOrConnectionError`, verbatim. -/
def timeoutPatterns : List String :=
  ["timeout", "timed out", "econnrefused", "enotfound", "etimedout",
   "connection", "socket hang up", "network"]

/-- `WhoisService.isTimeoutOrConnectionError(errorMessage)`. -/
def isTimeoutOrConnectionError (errorMessage : String) : Bool :=
  timeoutPatterns.any (fun p => strIncludes (strToLower errorMessage) p)

/-- The `problematicTLDs` list of `performWhoisLookup`, verbatim. -/
def problematicTLDs : List String := [".app", ".dev", ".page", ".new"]

/-- Index of the last occurrence of `c`, as JS `lastIndexOf` (but `Option`
instead of `-1`). -/
def lastIdxOf (c : Char) : List Char → Option Nat
  | [] => none
  | x :: xs =>
    match lastIdxOf c xs with
    | some i => some (i + 1)
    | none => if x == c then some 0 else none

/-- `domain.substring(domain.lastIndexOf('.'))`: the extension including
its dot; JS `substring(-1)` clamps to 0, giving the whole string when no
dot occurs. -/
def extensionOf (domain : String) : String :=
  match lastIdxOf '.' domain.data with
  | none => domain
  | some i => String.mk (domain.data.drop i)

/-- The error message thrown for a timeout on a problematic TLD, verbatim. -/
def manualVerificationMessage (extension : String) : String :=
  "El TLD " ++ extension ++
    " requiere verificación manual. WHOIS no disponible para esta extensión."

/-- What the `whois(domain, config)` transport call did: succeeded with a
raw payload, or rejected with an error message. -/
inductive LookupOutcome where
  | success (data : Option String)
  | failure (msg : String)

/-- `WhoisService.performWhoisLookup(domain)`, parametrized by the
transport outcome.  Returns `{available, data}` on the happy paths,
re-throws (as `.error`) otherwise.  The timeout configuration (15000 ms
for problematic TLDs) only shapes the transport call and is not part of
the returned value. -/
def performWhoisLookup (domain : String) (outcome : LookupOutcome) :
    Except String (Bool × Option String) :=
  let extension := extensionOf domain
  match outcome with
  | .success data => .ok (isDomainAvailable data, data)
  | .failure msg =>
    if isNotFoundError msg then .ok (true, none)
    else if isTimeoutOrConnectionError msg && problematicTLDs.contains extension then
      .error (manualVerificationMessage extension)
    else .error msg

/-! ## Cache store (cache.service.js) -/

/-- The uniform per-domain result record.  WHOIS results leave `error`,
`provider`, `price`, `currency` and `period` absent (`none`); the GoDaddy
service fills `provider` and the pricing fields. -/
structure DomainResult where
  domain : String
  available : Option Bool
  status : String
  responseTime : Nat
  fromCache : Bool
  checkedAt : String
  error : Option String := none
  provider : Option String := none
  price : Option Nat := none
  currency : Option String := none
  period : Option Nat := none
deriving Repr, DecidableEq

/-- A cache map entry, as `CacheService.set` stores it. -/
structure CacheEntry where
  value : DomainResult
  expiry : Nat
  createdAt : Nat
deriving Repr, DecidableEq

/-- The cache `Map`, as an association list with at most one entry per
key (`cacheInsert` keeps that shape, mirroring `Map.set` overwrite). -/
abbrev Cache := List (String × CacheEntry)

/-- `Map.get`: the entry under `key`, if present. -/
def cacheFind : Cache → String → Option CacheEntry
  | [], _ => none
  | (k, e) :: rest, key => if k = key then some e else cacheFind rest key

/-- `Map.delete key`. -/
def cacheErase (c : Cache) (key : String) : Cache :=
  c.filter (fun p => !(p.1 = key : Bool))

/-- `Map.set key entry` (overwrites any previous entry under `key`). -/
def cacheInsert (c : Cache) (key : String) (e : CacheEntry) : Cache :=
  (key, e) :: cacheErase c key

/-- `CacheService.get(key)` at time `now`: `null` on a missing key; an
expired entry is deleted as a side effect and reported as `null`.
Returns the value (if any) and the cache after the read. -/
def cacheGet (c : Cache) (key : String) (now : Nat) :
    Option DomainResult × Cache :=
  match cacheFind c key with
  | none => (none, c)
  | some item =>
    if now > item.expiry then (none, cacheErase c key)
    else (some item.value, c)

/-- `CacheService.set(key, value)` at time `now` with the service TTL
(the resolution services never pass a custom TTL). -/
def cacheSet (c : Cache) (key : String) (v : DomainResult) (now ttl : Nat) :
    Cache :=
  cacheInsert c key { value := v, expiry := now + ttl, createdAt := now }

/-! ## WHOIS resolution service (whois.service.js, `checkDomain`) -/

/-- `domain.toLowerCase().trim()`. -/
def normalizeDomain (domain : String) : String :=
  strTrim (strToLower domain)

namespace WhoisService

/-- `WhoisService.checkDomain(domain)`, with the ambient state and
environment made explicit: `cache` and `ttl` are the cache service's
state and TTL, `startTime` is `Date.now()` at entry, `elapsed` the time
the lookup takes (so `responseTime = elapsed` and the cache write happens
at `startTime + elapsed`), `checkedAt` the ISO timestamp string, and
`outcome` what the WHOIS transport did.  Returns the result, the cache
after the call, and how many tasks were submitted to the rate limiter
(each submission performs exactly one transport lookup). -/
def checkDomain (cache : Cache) (ttl : Nat) (domain : String)
    (startTime elapsed : Nat) (checkedAt : String)
    (outcome : LookupOutcome) : DomainResult × Cache × Nat :=
  let normalizedDomain := normalizeDomain domain
  match cacheGet cache normalizedDomain startTime with
  | (some cached, c) => ({ cached with fromCache := true }, c, 0)
  | (none, c) =>
    match performWhoisLookup normalizedDomain outcome with
    | .ok result =>
      let domainResult : DomainResult :=
        { domain := normalizedDomain
          available := some result.1
          status := if result.1 then "available" else "registered"
          responseTime := elapsed
          fromCache := false
          checkedAt := checkedAt }
      (domainResult,
       cacheSet c normalizedDomain domainResult (startTime + elapsed) ttl, 1)
    | .error msg =>
      ({ domain := normalizedDomain
         available := none
         status := "error"
         error := some msg
         responseTime := elapsed
         fromCache := false
         checkedAt := checkedAt }, c, 1)

end WhoisService

/-! ## GoDaddy structured-API service (godaddy.service.js) -/

/-- What the axios call to the GoDaddy availability endpoint did:
a 2xx payload, an HTTP error response with a status code (axios sets
`error.response`), or a plain failure with only `error.message`
(`none` for a falsy message). -/
inductive GoDaddyOutcome where
  | success (available : Bool) (price : Option Nat) (currency : Option String)
      (period : Option Nat)
  | httpError (status : Nat) (message : String)
  | plainError (message : Option String)

namespace GoDaddyService

/-- `GoDaddyService.checkDomain(domain)`, same conventions as
`WhoisService.checkDomain`; the counter now counts axios requests
(the GoDaddy path does not use the rate limiter).  `data.price || null`,
`data.currency || 'USD'` and `data.period || 1` follow JS truthiness:
an absent field, `0` or `""` falls back to the default. -/
def checkDomain (cache : Cache) (ttl : Nat) (domain : String)
    (startTime elapsed : Nat) (checkedAt : String)
    (outcome : GoDaddyOutcome) : DomainResult × Cache × Nat :=
  let normalizedDomain := normalizeDomain domain
  match cacheGet cache normalizedDomain startTime with
  | (some cached, c) => ({ cached with fromCache := true }, c, 0)
  | (none, c) =>
    match outcome with
    | .success avail price currency period =>
      let domainResult : DomainResult :=
        { domain := normalizedDomain
          available := some avail
          status := if avail then "available" else "registered"
          price := match price with
            | none => none
            | some 0 => none
            | some n => some n
          currency := some (match currency with
            | none => "USD"
            | some "" => "USD"
            | some cur => cur)
          period := some (match period with
            | none => 1
            | some 0 => 1
            | some n => n)
          responseTime := elapsed
          fromCache := false
          provider := some "godaddy"
          checkedAt := checkedAt }
      (domainResult,
       cacheSet c normalizedDomain domainResult (startTime + elapsed) ttl, 1)
    | .httpError status message =>
      let err :=
        if status = 400 then
          "API keys inválidas (¿estás usando keys de OTE en lugar de Production?)"
        else if status = 401 then
          "API Key de GoDaddy inválida. Verifica tu configuración."
        else if status = 429 then
          "Límite de requests excedido. Espera un momento."
        else if status = 422 then
          "Formato de dominio inválido"
        else if message = "" then "Error desconocido" else message
      ({ domain := normalizedDomain
         available := none
         status := "error"
         error := some err
         responseTime := elapsed
         fromCache := false
         provider := some "godaddy"
         checkedAt := checkedAt }, c, 1)
    | .plainError message =>
      ({ domain := normalizedDomain
         available := none
         status := "error"
         error := some (match message with
           | none => "Error desconocido"
           | some "" => "Error desconocido"
           | some m => m)
         responseTime := elapsed
         fromCache := false
         provider := some "godaddy"
         checkedAt := checkedAt }, c, 1)

end GoDaddyService

/-! ## Serial rate limiter (rateLimiter.js) -/

namespace RateLimiter

/-- One observable step of `processQueue`: running a queued task (settling
its promise with the task's own outcome) or sleeping the inter-task
delay. -/
inductive QEvent (α : Type) where
  | run (outcome : Except String α)
  | sleepEv
deriving Repr

/-- The drain loop of `RateLimiter.processQueue`, as the trace of events
it performs on a queue of tasks (each task given by its outcome): shift
the head task, run it (resolving or rejecting its promise), and sleep the
configured delay only if the queue is still non-empty.  The `processing`
flag in the source guarantees a single drain loop runs at a time, so one
sequential trace captures the execution. -/
def processQueue {α : Type} : List (Except String α) → List (QEvent α)
  | [] => []
  | t :: rest =>
    .run t ::
      (match rest with
       | [] => []
       | r :: rs => .sleepEv :: processQueue (r :: rs))

/-- The task outcomes delivered along a trace, in order. -/
def runsOf {α : Type} (evs : List (QEvent α)) : List (Except String α) :=
  evs.filterMap (fun e => match e with
    | .run t => some t
    | .sleepEv => none)

/-- How many inter-task sleeps a trace performs. -/
def sleepCount {α : Type} (evs : List (QEvent α)) : Nat :=
  (evs.filter (fun e => match e with
    | .run _ => false
    | .sleepEv => true)).length

end RateLimiter

/-! ## Batch checker (whois.service.js, `checkMultipleDomains`) -/

/-- The object passed to the `onProgress` callback.  The source also sends
a `percentage` string, `((i+1)/total*100).toFixed(2)`: floating-point
formatting, outside this embedding and unused by the claims. -/
structure ProgressEvent where
  current : Nat
  total : Nat
  domain : String
  result : DomainResult
deriving Repr, DecidableEq

/-- The loop body of `checkMultipleDomains`: `idx` is the 0-based loop
index, `total` the input length, `resolve` the awaited
`this.checkDomain` (state-threaded, since each call can touch the shared
cache and rate limiter).  Returns the pushed results, the `onProgress`
invocations in order, and the final state. -/
def checkMultipleDomainsAux {σ : Type} (resolve : σ → String → DomainResult × σ)
    (total idx : Nat) (st : σ) :
    List String → List DomainResult × List ProgressEvent × σ
  | [] => ([], [], st)
  | d :: ds =>
    let step := resolve st d
    let rest := checkMultipleDomainsAux resolve total (idx + 1) step.2 ds
    (step.1 :: rest.1,
     { current := idx + 1, total := total, domain := d, result := step.1 }
       :: rest.2.1,
     rest.2.2)

/-- `WhoisService.checkMultipleDomains(domains, onProgress)` (the GoDaddy
variant has the same loop shape). -/
def checkMultipleDomains {σ : Type} (resolve : σ → String → DomainResult × σ)
    (st : σ) (domains : List String) :
    List DomainResult × List ProgressEvent × σ :=
  checkMultipleDomainsAux resolve domains.length 0 st domains

/-! ## Domain-list parser (utils/fileParser.js) -/

/-- Split a char list at every occurrence of `sep` (JS `split(sep)` for a
one-char separator: always at least one piece, empty pieces kept). -/
def splitOnCharList (sep : Char) : List Char → List (List Char)
  | [] => [[]]
  | c :: cs =>
    if c = sep then [] :: splitOnCharList sep cs
    else
      match splitOnCharList sep cs with
      | [] => [[c]]
      | l :: ls => (c :: l) :: ls

/-- JS `s.split(sep)` for a single-char separator. -/
def strSplitOnChar (sep : Char) (s : String) : List String :=
  (splitOnCharList sep s.data).map String.mk

/-- JS `fileContent.split(/\r?\n/)`: split on `\n`, each piece shedding
one trailing `\r` (the regex consumes it as part of the separator). -/
def splitLines (content : String) : List String :=
  (strSplitOnChar '\n' content).map
    (fun l => if strEndsWith l "\r" then l.dropRight 1 else l)

/-- `cleanDomainName(domain)`: lower-case, trim, strip an initial
`http://`/`https://`, strip an initial `www.`, strip one final `/`, then
keep only what precedes the first `/` and the first `?`. -/
def cleanDomainName (domain : String) : String :=
  let s := strTrim (strToLower domain)
  let s := if strStartsWith s "https://" then s.drop 8
    else if strStartsWith s "http://" then s.drop 7 else s
  let s := if strStartsWith s "www." then s.drop 4 else s
  let s := if strEndsWith s "/" then s.dropRight 1 else s
  let s := (strSplitOnChar '/' s).headD ""
  (strSplitOnChar '?' s).headD ""

/-- `[a-zA-Z0-9]`, the label characters of the domain regex (which carries
the `i` flag). -/
def isAlnumChar (c : Char) : Bool :=
  (c ≥ 'a' && c ≤ 'z') || (c ≥ 'A' && c ≤ 'Z') || (c ≥ '0' && c ≤ '9')

/-- The tail of a regex label after its first char: `[a-z0-9-]*[a-z0-9]`
when non-empty, i.e. every char alphanumeric or a hyphen and the last one
alphanumeric. -/
def labelTail : List Char → Bool
  | [] => false
  | [c] => isAlnumChar c
  | c :: rest => (isAlnumChar c || c == '-') && labelTail rest

/-- One label of the regex: `[a-z0-9]([a-z0-9-]*[a-z0-9])?`. -/
def validLabel : List Char → Bool
  | [] => false
  | [c] => isAlnumChar c
  | c :: rest => isAlnumChar c && labelTail rest

/-- The anchored regex of `isValidDomainName`,
`^[a-z0-9]([a-z0-9-]*[a-z0-9])?(\.[a-z0-9]([a-z0-9-]*[a-z0-9])?)*$/i`:
every dot-separated piece is a valid label (splitting on `.` keeps empty
pieces, so leading, trailing or doubled dots fail). -/
def matchesDomainPattern (domain : String) : Bool :=
  (splitOnCharList '.' domain.data).all validLabel

/-- `isValidDomainName(domain)`: the regex plus the extra checks (length
at most 253, no `..`, no leading or trailing hyphen), and false for an
empty string. -/
def isValidDomainName (domain : String) : Bool :=
  if domain.length = 0 then false
  else
    matchesDomainPattern domain &&
    decide (domain.length ≤ 253) &&
    !(strIncludes domain "..") &&
    !(strStartsWith domain "-") &&
    !(strEndsWith domain "-")

/-- `[...new Set(domains)]`: deduplicate keeping first occurrences. -/
def dedupKeepFirst (seen : List String) : List String → List String
  | [] => []
  | x :: xs =>
    if seen.contains x then dedupKeepFirst seen xs
    else x :: dedupKeepFirst (x :: seen) xs

/-- `parseDomainsFile(fileContent)`: split lines, trim, drop blanks and
`#` comments, clean each name, keep only valid domains, deduplicate.
(The source returns `[]` up front for a falsy or non-string argument;
`""` is the falsy string.) -/
def parseDomainsFile (fileContent : String) : List String :=
  if fileContent = "" then []
  else
    let lines := splitLines fileContent
    let trimmed := (lines.map strTrim).filter (fun l => decide (0 < l.length))
    let noComments := trimmed.filter (fun l => !(strStartsWith l "#"))
    let cleaned := noComments.map cleanDomainName
    dedupKeepFirst [] (cleaned.filter isValidDomainName)

/-! ## Specification predicates and sample data -/

/-- The ResolutionResult consistency invariant of the spec's data model:
`status` and `available` always agree, and an unknown availability means
an error status. -/
def resultInv (r : DomainResult) : Prop :=
  (r.status = "available" ↔ r.available = some true) ∧
  (r.status = "registered" ↔ r.available = some false) ∧
  (r.available = none → r.status = "error")

instance (r : DomainResult) : Decidable (resultInv r) := by
  unfold resultInv
  infer_instance

/-- Every value stored in the cache satisfies the consistency invariant. -/
def cacheInv (c : Cache) : Prop :=
  ∀ p ∈ c, resultInv (p.2).value

/-- A concrete successful resolution result, for witnesses and
counterexamples. -/
def sampleResult : DomainResult :=
  { domain := "x.com", available := some true, status := "available",
    responseTime := 5, fromCache := false, checkedAt := "t0" }

/-- A cache holding a single entry for `x.com` that expired at time 5. -/
def staleCache : Cache :=
  [("x.com", { value := sampleResult, expiry := 5, createdAt := 0 })]

/-!
## Shared helper lemmas
-/

/-- Erasing a key really removes it. -/
theorem cacheFind_erase (c : Cache) (key : String) :
    cacheFind (cacheErase c key) key = none := by
  induction c with
  | nil => rfl
  | cons p rest ih =>
    obtain ⟨k, e⟩ := p
    by_cases hk : k = key
    · simpa [cacheErase, hk] using ih
    · simpa [cacheErase, cacheFind, hk] using ih

/-- After a read that reported a miss, the cache holds no entry under the
key (either it was never there or the read evicted the expired one). -/
theorem cacheFind_after_miss (c : Cache) (key : String) (now : Nat)
    (h : (cacheGet c key now).1 = none) :
    cacheFind (cacheGet c key now).2 key = none := by
  unfold cacheGet at *
  cases hf : cacheFind c key with
  | none => simpa using hf
  | some item =>
    rw [hf] at h
    by_cases hnow : now > item.expiry
    · simpa [hnow] using cacheFind_erase c key
    · simp [hnow] at h

/-- A key the cache does not hold misses at any read time. -/
theorem cacheGet_none_of_find_none (c : Cache) (key : String) (now : Nat)
    (h : cacheFind c key = none) : (cacheGet c key now).1 = none := by
  simp [cacheGet, h]

/-- A found entry is an entry of the association list. -/
theorem mem_of_cacheFind {c : Cache} {key : String} {e : CacheEntry}
    (h : cacheFind c key = some e) : (key, e) ∈ c := by
  induction c with
  | nil => simp [cacheFind] at h
  | cons p rest ih =>
    obtain ⟨k, v⟩ := p
    by_cases hk : k = key
    · subst hk
      simp [cacheFind] at h
      simp [h]
    · simp [cacheFind, hk] at h
      exact List.mem_cons_of_mem _ (ih h)

/-- With the not-found vocabulary ruled out, a transport failure matching
the transient vocabulary splits on whether the TLD is problematic. -/
theorem performWhoisLookup_timeout_split (domain msg : String)
    (hnf : isNotFoundError msg = false)
    (ht : isTimeoutOrConnectionError msg = true) :
    performWhoisLookup domain (.failure msg) =
      if problematicTLDs.contains (extensionOf domain) then
        .error (manualVerificationMessage (extensionOf domain))
      else .error msg := by
  by_cases hp : problematicTLDs.contains (extensionOf domain) <;>
    simp [performWhoisLookup, hnf, ht, hp]

/-!
## C1 — strong registration evidence forces a registered verdict
-/

/-- C1 (amended): for a successful raw response whose normalized lowercase
serialization is at least the 50-char minimal-content threshold long,
finding at least one strong registration pattern — which covers both the
two-or-more short-circuit and the exactly-one case, regardless of any
availability phrases — makes the classifier return registered
(`available = false`). -/
theorem one_strong_pattern_registered (s : String)
    (h50 : 50 ≤ (strToLower s).length)
    (h1 : 1 ≤ registeredPatternCount (strToLower s)) :
    isDomainAvailable (some s) = false := by
  by_cases h2 : 2 ≤ registeredPatternCount (strToLower s) <;>
    simp [isDomainAvailable, h2, h1, Nat.not_lt.mpr h50]

/-- Witness for C1's theorem: the spec's own scenario, with two strong
matches (`registrar:` and `creation date:`). -/
theorem one_strong_pattern_registered_witness :
    isDomainAvailable
      (some "Domain Name: EXAMPLE.COM Registrar: Foo Creation Date: 2001-01-01") =
      false :=
  one_strong_pattern_registered _ (by decide) (by decide)

/-- Counterexample to C1 as stated: a serialization under 50 chars holding
two distinct strong registration patterns is classified available, because
the minimal-content check runs before the pattern scan. -/
theorem short_payload_overrides_patterns :
    2 ≤ registeredPatternCount
        (strToLower "\x7b\"a\":\"Registrar:Creation Date:\"\x7d") ∧
    isDomainAvailable (some "\x7b\"a\":\"Registrar:Creation Date:\"\x7d") = true := by
  decide

/-!
## C2 — no evidence: the length thresholds decide
-/

/-- C2: when neither vocabulary matches, the verdict is available exactly
when the serialization is under the 200-char secondary threshold (which
subsumes the under-50 minimal-content case), and an absent/null payload is
available outright. -/
theorem no_evidence_length_decides :
    (∀ s : String,
      registeredPatternCount (strToLower s) = 0 →
      hasAvailablePattern (strToLower s) = false →
      isDomainAvailable (some s) = decide ((strToLower s).length < 200)) ∧
    isDomainAvailable none = true := by
  refine ⟨fun s hreg hav => ?_, rfl⟩
  by_cases h50 : (strToLower s).length < 50
  · have h200 : (strToLower s).length < 200 := by omega
    simp [isDomainAvailable, h50, h200]
  · by_cases h200 : (strToLower s).length < 200 <;>
      simp [isDomainAvailable, h50, hreg, hav, h200]

/-- Witness for C2's theorem at the empty serialization. -/
theorem no_evidence_length_decides_witness : isDomainAvailable (some "") = true := by
  have h := no_evidence_length_decides.1 "" (by decide) (by decide)
  simpa using h

/-!
## C3 — not-found transport errors mean available
-/

/-- C3: a transport failure whose message matches the not-found vocabulary
yields `{available: true}` — never an error — before the transient check
even runs (no hypothesis excludes transient-matching messages or
problematic TLDs), and the resolution result is then
`available`/`some true`. -/
theorem notfound_error_available (domain msg : String)
    (h : isNotFoundError msg = true) :
    performWhoisLookup domain (.failure msg) = .ok (true, none) ∧
    (∀ (cache : Cache) (ttl startTime elapsed : Nat) (checkedAt : String),
      (cacheGet cache (normalizeDomain domain) startTime).1 = none →
      (WhoisService.checkDomain cache ttl domain startTime elapsed checkedAt
          (.failure msg)).1.available = some true ∧
      (WhoisService.checkDomain cache ttl domain startTime elapsed checkedAt
          (.failure msg)).1.status = "available") := by
  have hperf : ∀ d : String, performWhoisLookup d (.failure msg) = .ok (true, none) := by
    intro d
    simp [performWhoisLookup, h]
  refine ⟨hperf domain, fun cache ttl startTime elapsed checkedAt hmiss => ?_⟩
  rcases hget : cacheGet cache (normalizeDomain domain) startTime with ⟨vo, c2⟩
  rw [hget] at hmiss
  simp only at hmiss
  subst hmiss
  simp only [WhoisService.checkDomain]
  rw [hget, hperf (normalizeDomain domain)]
  simp

/-- Witness for C3's theorem: a message matching both the not-found and the
transient vocabulary, on a problematic TLD, still classifies available. -/
theorem notfound_error_available_witness :
    performWhoisLookup "example.app" (.failure "ETIMEDOUT: domain not found") =
      .ok (true, none) :=
  (notfound_error_available "example.app" "ETIMEDOUT: domain not found" (by decide)).1

/-!
## C5 — transient errors: manual-verification for problematic TLDs
-/

/-- C5 (amended): for a transport failure whose message matches the
transient/connectivity vocabulary and does **not** match the not-found
vocabulary, a problematic TLD (`.app`/`.dev`/`.page`/`.new`) turns the
failure into the distinct manual-verification error (and the resolution
result is `status = error` carrying that message), while any other TLD
propagates the original message verbatim. -/
theorem transient_error_problematic_tld (domain msg : String)
    (hnf : isNotFoundError msg = false)
    (ht : isTimeoutOrConnectionError msg = true) :
    (problematicTLDs.contains (extensionOf domain) = true →
      performWhoisLookup domain (.failure msg) =
        .error (manualVerificationMessage (extensionOf domain))) ∧
    (problematicTLDs.contains (extensionOf domain) = false →
      performWhoisLookup domain (.failure msg) = .error msg) ∧
    (∀ (cache : Cache) (ttl startTime elapsed : Nat) (checkedAt : String),
      (cacheGet cache (normalizeDomain domain) startTime).1 = none →
      problematicTLDs.contains (extensionOf (normalizeDomain domain)) = true →
      (WhoisService.checkDomain cache ttl domain startTime elapsed checkedAt
          (.failure msg)).1.status = "error" ∧
      (WhoisService.checkDomain cache ttl domain startTime elapsed checkedAt
          (.failure msg)).1.error =
        some (manualVerificationMessage (extensionOf (normalizeDomain domain)))) := by
  refine ⟨fun hp => ?_, fun hp => ?_,
    fun cache ttl startTime elapsed checkedAt hmiss hp => ?_⟩
  · rw [performWhoisLookup_timeout_split domain msg hnf ht, if_pos hp]
  · have hp2 : ¬ (problematicTLDs.contains (extensionOf domain) = true) := by
      rw [hp]
      decide
    rw [performWhoisLookup_timeout_split domain msg hnf ht, if_neg hp2]
  · rcases hget : cacheGet cache (normalizeDomain domain) startTime with ⟨vo, c2⟩
    rw [hget] at hmiss
    simp only at hmiss
    subst hmiss
    simp only [WhoisService.checkDomain]
    rw [hget, performWhoisLookup_timeout_split (normalizeDomain domain) msg hnf ht,
      if_pos hp]
    simp

/-- Witness for C5's theorem: `ETIMEDOUT` on a `.app` domain. -/
theorem transient_error_problematic_tld_witness :
    performWhoisLookup "test.app" (.failure "ETIMEDOUT") =
      .error (manualVerificationMessage (extensionOf "test.app")) :=
  (transient_error_problematic_tld "test.app" "ETIMEDOUT" (by decide) (by decide)).1
    (by decide)

/-- Counterexample to C5 as stated: a message matching the transient
vocabulary that also matches the not-found vocabulary is classified
available — not an error — even on a problematic TLD, because the
not-found check runs first. -/
theorem notfound_beats_transient :
    isTimeoutOrConnectionError "ETIMEDOUT: domain not found" = true ∧
    problematicTLDs.contains (extensionOf "example.app") = true ∧
    performWhoisLookup "example.app" (.failure "ETIMEDOUT: domain not found") =
      .ok (true, none) ∧
    (WhoisService.checkDomain [] 86400000 "example.app" 0 5 "t"
        (.failure "ETIMEDOUT: domain not found")).1.status = "available" :=
  ⟨by decide, by decide, by rfl, by decide⟩

/-!
## C4 — exceptions become error results and are never cached
-/

/-- C4 (amended): on a cache miss, a lookup failure is converted into a
`status = error` result with `available = null`, the failure message and
the elapsed time; nothing is written to the cache — the cache after the
call is exactly the cache after the initial read (which may only have
lazily evicted an already-expired entry for the domain) — and it holds no
entry for the domain, so any subsequent call is a fresh miss. -/
theorem error_result_not_cached (cache : Cache) (ttl : Nat) (domain : String)
    (startTime elapsed : Nat) (checkedAt : String) (outcome : LookupOutcome)
    (msg : String)
    (hmiss : (cacheGet cache (normalizeDomain domain) startTime).1 = none)
    (herr : performWhoisLookup (normalizeDomain domain) outcome = .error msg) :
    (WhoisService.checkDomain cache ttl domain startTime elapsed checkedAt outcome).1 =
      { domain := normalizeDomain domain, available := none, status := "error",
        error := some msg, responseTime := elapsed, fromCache := false,
        checkedAt := checkedAt } ∧
    (WhoisService.checkDomain cache ttl domain startTime elapsed checkedAt outcome).2.1 =
      (cacheGet cache (normalizeDomain domain) startTime).2 ∧
    cacheFind
      (WhoisService.checkDomain cache ttl domain startTime elapsed checkedAt
        outcome).2.1 (normalizeDomain domain) = none ∧
    (∀ t2 : Nat,
      (cacheGet
        (WhoisService.checkDomain cache ttl domain startTime elapsed checkedAt
          outcome).2.1 (normalizeDomain domain) t2).1 = none) := by
  have hfind := cacheFind_after_miss cache (normalizeDomain domain) startTime hmiss
  rcases hget : cacheGet cache (normalizeDomain domain) startTime with ⟨vo, c2⟩
  rw [hget] at hmiss
  simp only at hmiss
  subst hmiss
  rw [hget] at hfind
  simp only at hfind
  simp only [WhoisService.checkDomain]
  rw [hget, herr]
  refine ⟨rfl, rfl, hfind, fun t2 => ?_⟩
  exact cacheGet_none_of_find_none c2 (normalizeDomain domain) t2 hfind

/-- Witness for C4's theorem: a failing lookup on an empty cache. -/
theorem error_result_not_cached_witness :
    (WhoisService.checkDomain [] 86400000 "a.com" 0 3 "t" (.failure "boom")).1 =
      { domain := normalizeDomain "a.com", available := none, status := "error",
        error := some "boom", responseTime := 3, fromCache := false,
        checkedAt := "t" } :=
  (error_result_not_cached [] 86400000 "a.com" 0 3 "t" (.failure "boom") "boom"
    (by decide) (by rfl)).1

/-- Counterexample to C4 as stated: with an expired entry for the domain in
the cache, an erroring call still changes the cache state — the read
lazily evicts the stale entry — so "the cache state is unchanged on
error" fails literally. -/
theorem error_path_evicts_expired_entry :
    (WhoisService.checkDomain staleCache 86400000 "x.com" 10 3 "t1"
        (.failure "boom")).1.status = "error" ∧
    (WhoisService.checkDomain staleCache 86400000 "x.com" 10 3 "t1"
        (.failure "boom")).2.1 ≠ staleCache := by
  decide

/-!
## C8 — cache hits return an unchanged copy without transport calls
-/

/-- C8: a read that finds a non-expired entry makes `checkDomain` return
that entry's value with only `fromCache` flipped to `true`, an unchanged
cache, and zero rate-limiter submissions (hence zero transport calls);
consequently a successful call followed, within the TTL window, by a
second call for the same domain returns the first result with
`fromCache = true` — same `status` and `available` — again with zero
submissions. -/
theorem cache_hit_returns_copy (cache : Cache) (ttl : Nat) (domain : String)
    (startTime elapsed : Nat) (checkedAt : String) (outcome : LookupOutcome) :
    (∀ (v : DomainResult) (c2 : Cache),
      cacheGet cache (normalizeDomain domain) startTime = (some v, c2) →
      WhoisService.checkDomain cache ttl domain startTime elapsed checkedAt outcome =
        ({ v with fromCache := true }, c2, 0)) ∧
    (∀ (b : Bool) (d : Option String) (startTime2 elapsed2 : Nat)
      (checkedAt2 : String) (outcome2 : LookupOutcome),
      (cacheGet cache (normalizeDomain domain) startTime).1 = none →
      performWhoisLookup (normalizeDomain domain) outcome = .ok (b, d) →
      ¬ startTime2 > startTime + elapsed + ttl →
      WhoisService.checkDomain
          (WhoisService.checkDomain cache ttl domain startTime elapsed checkedAt
            outcome).2.1 ttl domain startTime2 elapsed2 checkedAt2 outcome2 =
        ({ (WhoisService.checkDomain cache ttl domain startTime elapsed checkedAt
              outcome).1 with fromCache := true },
         (WhoisService.checkDomain cache ttl domain startTime elapsed checkedAt
           outcome).2.1, 0)) := by
  constructor
  · intro v c2 h
    simp only [WhoisService.checkDomain]
    rw [h]
  · intro b d startTime2 elapsed2 checkedAt2 outcome2 hmiss hok hlt
    rcases hget : cacheGet cache (normalizeDomain domain) startTime with ⟨vo, c2⟩
    rw [hget] at hmiss
    simp only at hmiss
    subst hmiss
    have e1 : WhoisService.checkDomain cache ttl domain startTime elapsed checkedAt
        outcome =
        ({ domain := normalizeDomain domain, available := some b,
           status := if b then "available" else "registered",
           responseTime := elapsed, fromCache := false, checkedAt := checkedAt },
         cacheSet c2 (normalizeDomain domain)
           { domain := normalizeDomain domain, available := some b,
             status := if b then "available" else "registered",
             responseTime := elapsed, fromCache := false, checkedAt := checkedAt }
           (startTime + elapsed) ttl, 1) := by
      simp only [WhoisService.checkDomain]
      rw [hget, hok]
    rw [e1]
    simp only [WhoisService.checkDomain, cacheSet, cacheInsert, cacheGet, cacheFind]
    simp [hlt]

/-- Witness for C8's theorem: a fresh successful lookup for `a.com`
followed by a second call at a later time inside the TTL window. -/
theorem cache_hit_returns_copy_witness :
    WhoisService.checkDomain
        (WhoisService.checkDomain [] 100 "a.com" 0 1 "t0" (.success none)).2.1
        100 "a.com" 10 2 "t1" (.failure "boom") =
      ({ (WhoisService.checkDomain [] 100 "a.com" 0 1 "t0" (.success none)).1 with
          fromCache := true },
       (WhoisService.checkDomain [] 100 "a.com" 0 1 "t0" (.success none)).2.1, 0) :=
  (cache_hit_returns_copy [] 100 "a.com" 0 1 "t0" (.success none)).2 true none 10 2
    "t1" (.failure "boom") (by decide) (by rfl) (by decide)

/-!
## C9 — every result satisfies the status/available consistency invariant
-/

/-- Erasing entries preserves the cache invariant. -/
theorem cacheInv_erase {c : Cache} {key : String} (h : cacheInv c) :
    cacheInv (cacheErase c key) :=
  fun p hp => h p (List.mem_of_mem_filter hp)

/-- The cache left behind by a read still satisfies the invariant. -/
theorem cacheInv_get_snd {c : Cache} {key : String} {now : Nat}
    (h : cacheInv c) : cacheInv (cacheGet c key now).2 := by
  unfold cacheGet
  cases hf : cacheFind c key with
  | none => exact h
  | some item =>
    by_cases hnow : now > item.expiry
    · simpa [hnow] using cacheInv_erase h
    · simpa [hnow] using h

/-- A value a read returns came out of an invariant-satisfying cache. -/
theorem resultInv_get_fst {c : Cache} {key : String} {now : Nat}
    {v : DomainResult} (hc : cacheInv c)
    (h : (cacheGet c key now).1 = some v) : resultInv v := by
  unfold cacheGet at h
  cases hf : cacheFind c key with
  | none => rw [hf] at h; simp at h
  | some item =>
    rw [hf] at h
    by_cases hnow : now > item.expiry
    · simp [hnow] at h
    · simp [hnow] at h
      exact h ▸ hc _ (mem_of_cacheFind hf)

/-- Writing an invariant-satisfying value preserves the cache invariant. -/
theorem cacheInv_set {c : Cache} {key : String} {v : DomainResult}
    {now ttl : Nat} (hc : cacheInv c) (hv : resultInv v) :
    cacheInv (cacheSet c key v now ttl) := by
  intro p hp
  rcases List.mem_cons.mp hp with h | h
  · rw [h]
    exact hv
  · exact cacheInv_erase hc p h

/-- C9: from a cache whose stored values all satisfy the consistency
invariant, both the WHOIS and the GoDaddy `checkDomain` produce a result
satisfying it (`status = available` iff `available = true`,
`status = registered` iff `available = false`, unknown availability only
with `status = error`), and leave the cache invariant intact. -/
theorem result_status_available_consistent (cache : Cache) (ttl : Nat)
    (domain : String) (startTime elapsed : Nat) (checkedAt : String)
    (hc : cacheInv cache) :
    (∀ outcome : LookupOutcome,
      resultInv (WhoisService.checkDomain cache ttl domain startTime elapsed
        checkedAt outcome).1 ∧
      cacheInv (WhoisService.checkDomain cache ttl domain startTime elapsed
        checkedAt outcome).2.1) ∧
    (∀ outcome : GoDaddyOutcome,
      resultInv (GoDaddyService.checkDomain cache ttl domain startTime elapsed
        checkedAt outcome).1 ∧
      cacheInv (GoDaddyService.checkDomain cache ttl domain startTime elapsed
        checkedAt outcome).2.1) := by
  rcases hget : cacheGet cache (normalizeDomain domain) startTime with ⟨vo, c2⟩
  have hc2 : cacheInv c2 := by
    have := @cacheInv_get_snd cache (normalizeDomain domain) startTime hc
    rwa [hget] at this
  constructor
  · intro outcome
    simp only [WhoisService.checkDomain]
    rw [hget]
    cases vo with
    | some v =>
      have hv : resultInv v := resultInv_get_fst hc (by rw [hget])
      exact ⟨hv, hc2⟩
    | none =>
      cases hperf : performWhoisLookup (normalizeDomain domain) outcome with
      | ok pr =>
        have hr : resultInv
            { domain := normalizeDomain domain, available := some pr.1,
              status := if pr.1 then "available" else "registered",
              responseTime := elapsed, fromCache := false,
              checkedAt := checkedAt : DomainResult } := by
          cases hb : pr.1 <;> simp [resultInv, hb]
        exact ⟨hr, cacheInv_set hc2 hr⟩
      | error msg =>
        refine ⟨?_, hc2⟩
        simp [resultInv]
  · intro outcome
    simp only [GoDaddyService.checkDomain]
    rw [hget]
    cases vo with
    | some v =>
      have hv : resultInv v := resultInv_get_fst hc (by rw [hget])
      exact ⟨hv, hc2⟩
    | none =>
      cases outcome with
      | success avail price currency period =>
        have hr : resultInv
            { domain := normalizeDomain domain, available := some avail,
              status := if avail then "available" else "registered",
              price := match price with
                | none => none
                | some 0 => none
                | some n => some n,
              currency := some (match currency with
                | none => "USD"
                | some "" => "USD"
                | some cur => cur),
              period := some (match period with
                | none => 1
                | some 0 => 1
                | some n => n),
              responseTime := elapsed, fromCache := false,
              provider := some "godaddy", checkedAt := checkedAt : DomainResult } := by
          cases avail <;> simp [resultInv]
        exact ⟨hr, cacheInv_set hc2 hr⟩
      | httpError status message =>
        refine ⟨?_, hc2⟩
        simp [resultInv]
      | plainError message =>
        refine ⟨?_, hc2⟩
        simp [resultInv]

/-- Witness for C9's theorem: the invariant holds for a fresh successful
lookup from an empty cache. -/
theorem result_status_available_consistent_witness :
    resultInv (WhoisService.checkDomain [] 100 "a.com" 0 1 "t"
      (.success none)).1 :=
  ((result_status_available_consistent [] 100 "a.com" 0 1 "t"
      (by simp [cacheInv])).1 (.success none)).1

/-!
## C6 — FIFO draining, failure isolation, no trailing delay
-/

/-- C6: draining a queue delivers every task's own outcome, in strict FIFO
submission order (so a throwing task rejects exactly its own promise and
every later task still runs), performs exactly `n - 1` inter-task sleeps,
and never ends the trace with a sleep. -/
theorem rateLimiter_fifo_isolated_failures (α : Type)
    (tasks : List (Except String α)) :
    RateLimiter.runsOf (RateLimiter.processQueue tasks) = tasks ∧
    RateLimiter.sleepCount (RateLimiter.processQueue tasks) = tasks.length - 1 ∧
    (RateLimiter.processQueue tasks).getLast? ≠
      some RateLimiter.QEvent.sleepEv := by
  induction tasks with
  | nil =>
    refine ⟨rfl, rfl, ?_⟩
    simp [RateLimiter.processQueue]
  | cons t rest ih =>
    cases rest with
    | nil =>
      refine ⟨rfl, rfl, ?_⟩
      simp [RateLimiter.processQueue]
    | cons r rs =>
      obtain ⟨ih1, ih2, ih3⟩ := ih
      have hq : RateLimiter.processQueue (t :: r :: rs) =
          .run t :: .sleepEv :: RateLimiter.processQueue (r :: rs) := rfl
      refine ⟨?_, ?_, ?_⟩
      · rw [hq]
        simp only [RateLimiter.runsOf, List.filterMap_cons] at ih1 ⊢
        rw [ih1]
      · rw [hq]
        simp only [RateLimiter.sleepCount, List.filter_cons] at ih2 ⊢
        simp only [List.length_cons] at ih2 ⊢
        simp [ih2]
      · rw [hq]
        have hcons : ∃ ev evs, RateLimiter.processQueue (r :: rs) = ev :: evs := by
          cases rs with
          | nil => exact ⟨_, _, rfl⟩
          | cons r2 rs2 => exact ⟨_, _, rfl⟩
        obtain ⟨ev, evs, hev⟩ := hcons
        rw [hev] at ih3 ⊢
        rw [List.getLast?_cons_cons, List.getLast?_cons_cons]
        exact ih3

/-!
## C7 — the batch checker is sequential with exact progress reporting
-/

/-- The loop invariant of the batch checker, generalized over the loop
index and the threaded state. -/
theorem checkMultipleDomainsAux_spec (σ : Type)
    (resolve : σ → String → DomainResult × σ) (total : Nat)
    (ds : List String) : ∀ (idx : Nat) (st : σ),
    (checkMultipleDomainsAux resolve total idx st ds).1.length = ds.length ∧
    (checkMultipleDomainsAux resolve total idx st ds).2.1.map
      (fun ev => ev.domain) = ds ∧
    (checkMultipleDomainsAux resolve total idx st ds).2.1.map
      (fun ev => ev.result) = (checkMultipleDomainsAux resolve total idx st ds).1 ∧
    (checkMultipleDomainsAux resolve total idx st ds).2.1.map
      (fun ev => ev.current) = List.range' (idx + 1) ds.length ∧
    (checkMultipleDomainsAux resolve total idx st ds).2.1.map
      (fun ev => ev.total) = List.replicate ds.length total := by
  induction ds with
  | nil =>
    intro idx st
    simp [checkMultipleDomainsAux]
  | cons d ds ih =>
    intro idx st
    obtain ⟨i1, i2, i3, i4, i5⟩ := ih (idx + 1) (resolve st d).2
    simp only [checkMultipleDomainsAux, List.map_cons, List.length_cons]
    refine ⟨by rw [i1], by rw [i2], by rw [i3], ?_, ?_⟩
    · rw [i4, List.range'_succ]
    · rw [i5, List.replicate_succ]

/-- C7: `checkMultipleDomains` resolves the input list sequentially
(threading the shared state left to right), returns exactly one result
per input domain, reports progress exactly once per domain — with
1-based `current` indices `1..n`, `total = n`, the domain and the very
result just produced, in input order — and on an empty input returns the
empty result list with no callback invocations and an untouched state. -/
theorem checkMultipleDomains_sequential_progress (σ : Type)
    (resolve : σ → String → DomainResult × σ) (st : σ)
    (domains : List String) :
    (checkMultipleDomains resolve st domains).1.length = domains.length ∧
    (checkMultipleDomains resolve st domains).2.1.map (fun ev => ev.domain) =
      domains ∧
    (checkMultipleDomains resolve st domains).2.1.map (fun ev => ev.result) =
      (checkMultipleDomains resolve st domains).1 ∧
    (checkMultipleDomains resolve st domains).2.1.map (fun ev => ev.current) =
      List.range' 1 domains.length ∧
    (checkMultipleDomains resolve st domains).2.1.map (fun ev => ev.total) =
      List.replicate domains.length domains.length ∧
    (domains = [] → checkMultipleDomains resolve st domains = ([], [], st)) := by
  obtain ⟨h1, h2, h3, h4, h5⟩ :=
    checkMultipleDomainsAux_spec σ resolve domains.length domains 0 st
  exact ⟨h1, h2, h3, h4, h5, fun h => by subst h; rfl⟩

/-- Witness for C7's theorem: the empty batch resolves to no results, no
progress callbacks and an unchanged state. -/
theorem checkMultipleDomains_empty_witness :
    checkMultipleDomains (fun (s : Unit) (_ : String) => (sampleResult, s)) () [] =
      ([], [], ()) :=
  (checkMultipleDomains_sequential_progress Unit
    (fun s _ => (sampleResult, s)) () []).2.2.2.2.2 rfl

/-!
## C10 — syntax validation happens at parse time, not at resolution time
-/

/-- Deduplication only keeps elements of its input. -/
theorem mem_of_mem_dedupKeepFirst {x : String} :
    ∀ (seen l : List String), x ∈ dedupKeepFirst seen l → x ∈ l := by
  intro seen l
  induction l generalizing seen with
  | nil => simp [dedupKeepFirst]
  | cons a as ih =>
    intro h
    by_cases ha : seen.contains a
    · simp only [dedupKeepFirst, ha, if_pos] at h
      exact List.mem_cons_of_mem _ (ih seen h)
    · simp only [dedupKeepFirst, ha, if_neg, Bool.false_eq_true,
        not_false_eq_true] at h
      rcases List.mem_cons.mp h with h | h
      · simp [h]
      · exact List.mem_cons_of_mem _ (ih (a :: seen) h)

/-- C10 (amended): the domain-syntax invariant is enforced only by the
file parser — every domain `parseDomainsFile` emits passes
`isValidDomainName`, so syntactically invalid lines never reach
resolution through the upload path.  Resolution itself performs no
syntax check: the structured-API path reports a malformed domain only
through the provider's 422 response, mapped to a `status = error` result
after the request (one consumed call). -/
theorem invalid_domains_filtered_at_parse (fileContent : String) :
    (∀ d, d ∈ parseDomainsFile fileContent → isValidDomainName d = true) ∧
    (∀ (cache : Cache) (ttl : Nat) (domain : String) (startTime elapsed : Nat)
      (checkedAt m : String),
      (cacheGet cache (normalizeDomain domain) startTime).1 = none →
      (GoDaddyService.checkDomain cache ttl domain startTime elapsed checkedAt
        (.httpError 422 m)).1.status = "error" ∧
      (GoDaddyService.checkDomain cache ttl domain startTime elapsed checkedAt
        (.httpError 422 m)).1.error = some "Formato de dominio inválido" ∧
      (GoDaddyService.checkDomain cache ttl domain startTime elapsed checkedAt
        (.httpError 422 m)).2.2 = 1) := by
  constructor
  · intro d hd
    unfold parseDomainsFile at hd
    split at hd
    · simp at hd
    · exact List.of_mem_filter (mem_of_mem_dedupKeepFirst _ _ hd)
  · intro cache ttl domain startTime elapsed checkedAt m hmiss
    rcases hget : cacheGet cache (normalizeDomain domain) startTime with ⟨vo, c2⟩
    rw [hget] at hmiss
    simp only at hmiss
    subst hmiss
    simp only [GoDaddyService.checkDomain]
    rw [hget]
    simp

/-- Witness for C10's theorem: a parsed file emits only valid domains. -/
theorem invalid_domains_filtered_at_parse_witness :
    isValidDomainName "a.com" = true :=
  (invalid_domains_filtered_at_parse "a.com\nbad..com\n").1 "a.com" (by decide)

/-- Counterexample to C10 as stated: `bad..com` fails the domain-syntax
invariant, yet resolving it submits a task to the rate-limited scheduler
(the submission counter is 1, with the transport call made) — nothing
rejects it before any query. -/
theorem checkDomain_no_syntax_validation :
    isValidDomainName "bad..com" = false ∧
    (WhoisService.checkDomain [] 86400000 "bad..com" 0 5 "t"
        (.failure "whois lookup error")).2.2 = 1 := by
  decide
